import Mathlib

/-!
Verification of the tournament fetch-and-cache subsystem of the
commentary-dashboard repository.

The definitions below are shallow embeddings of the TypeScript source:

* `calculateDynamicTTL` — packages/backend/src/utils/ttl-calculator.ts
* `Backend`, `compositeGet`, `compositeSet` — packages/backend/src/cache/FallbackCacheService.ts
* `InMemoryCache`, `imGet`, `imSet`, `imExists`, `imGetMetadata` —
  packages/backend/src/cache/InMemoryCacheService.ts
* `executeQueryWithRetry`, `setsLoop` — packages/backend/src/startgg.ts
* `transformPlayerData`, `transformBasicEventData`, `loadEventParticipants` —
  packages/backend/src/startgg.ts
* `tournamentGetHandler` — packages/backend/src/routes/tournament.ts
* `stepReq`, `runSched` — interleaving semantics of concurrent executions of
  the GET handler, with one atomic step per await point.

Time is measured in milliseconds (JavaScript `Date.now()`), as `Int`.
-/

namespace Dashboard

/-! ## Association-list helpers (JavaScript `Map` with string keys) -/

def alGet {α : Type} : List (String × α) → String → Option α
  | [], _ => none
  | (k2, v) :: rest, k => if k2 = k then some v else alGet rest k

/-- `Map.set`: overwrite in place (keeping insertion position) or append. -/
def alSet {α : Type} : List (String × α) → String → α → List (String × α)
  | [], k, v => [(k, v)]
  | (k2, v2) :: rest, k, v =>
    if k2 = k then (k, v) :: rest else (k2, v2) :: alSet rest k v

theorem alGet_alSet_self {α : Type} (l : List (String × α)) (k : String) (v : α) :
    alGet (alSet l k v) k = some v := by
  induction l with
  | nil => simp [alSet, alGet]
  | cons hd tl ih =>
    obtain ⟨k2, v2⟩ := hd
    by_cases h : k2 = k
    · simp [alSet, alGet, h]
    · simp [alSet, alGet, h, ih]

/-! ## Data model (packages/shared/src/index.ts) -/

inductive MatchStatus
  | pending
  | in_progress
  | completed
deriving DecidableEq, Repr

structure Player where
  id : String
  tag : String
  name : Option String
  startggId : Option String
deriving DecidableEq, Repr

/-- A match (a start.gg set). Fields not inspected by the claims under
verification (players, winner, score, round) are omitted; `completedAt` is
`none` when the upstream value was missing or `0` (the source stores
`set.completedAt || undefined`, so a falsy value never reaches a Match). -/
structure MatchT where
  id : String
  status : MatchStatus
  completedAt : Option Int
deriving DecidableEq, Repr

/-- A phase group. The source field `matches` is spelled `matchList` here
because `matches` is a reserved word in Lean. -/
structure BracketT where
  id : String
  name : String
  matchList : List MatchT
deriving DecidableEq, Repr

structure Event where
  id : String
  name : String
  slug : String
  brackets : List BracketT
  participants : List Player
  currentMatches : List MatchT
deriving DecidableEq, Repr

structure Tournament where
  id : String
  name : String
  slug : String
  url : String
  events : List Event
deriving DecidableEq, Repr

/-! ## TTL policy (packages/backend/src/utils/ttl-calculator.ts) -/

/-- One iteration of the match-scanning loop of `calculateDynamicTTL`:
accumulates `(hasOngoingMatches, hasRecentlyCompletedMatches, hasAnyPendingMatches)`.
The source compares `now - match.completedAt < 5 * 60 * 1000`. -/
def ttlStep (now : Int) (acc : Bool × Bool × Bool) (m : MatchT) : Bool × Bool × Bool :=
  ( acc.1 || (m.status == MatchStatus.in_progress)
  , acc.2.1 || ((m.status == MatchStatus.completed) &&
      (match m.completedAt with
       | some c => decide (now - c < 5 * 60 * 1000)
       | none => false))
  , acc.2.2 || (m.status == MatchStatus.pending) )

/-- `calculateDynamicTTL(tournament)` with `now = Date.now()` passed explicitly. -/
def calculateDynamicTTL (now : Int) (t : Tournament) : Nat :=
  let flags := t.events.foldl
    (fun acc e => e.currentMatches.foldl (ttlStep now) acc) (false, false, false)
  if flags.1 then 15
  else if flags.2.1 then 120
  else if flags.2.2 then 600
  else 1800

/-- Row 1 of the policy table of §4.4: any match in progress. -/
def inProgressB (m : MatchT) : Bool := m.status == MatchStatus.in_progress

/-- Row 2 of the policy table of §4.4: completed and `now − completedAt < 300` seconds
(300 000 ms). -/
def recentlyCompletedB (now : Int) (m : MatchT) : Bool :=
  (m.status == MatchStatus.completed) &&
    (match m.completedAt with
     | some c => decide (now - c < 300 * 1000)
     | none => false)

/-- Row 3 of the policy table of §4.4: any match pending. -/
def pendingB (m : MatchT) : Bool := m.status == MatchStatus.pending

theorem ttlStep_eq (now : Int) (acc : Bool × Bool × Bool) (m : MatchT) :
    ttlStep now acc m =
      (acc.1 || inProgressB m, acc.2.1 || recentlyCompletedB now m, acc.2.2 || pendingB m) := by
  unfold ttlStep recentlyCompletedB inProgressB pendingB
  cases m.completedAt <;>
    simp only [show (5 * 60 * 1000 : Int) = 300 * 1000 from by norm_num]

theorem foldl_ttlStep (now : Int) (l : List MatchT) (a b c : Bool) :
    l.foldl (ttlStep now) (a, b, c) =
      (a || l.any inProgressB, b || l.any (recentlyCompletedB now), c || l.any pendingB) := by
  induction l generalizing a b c with
  | nil => simp
  | cons hd tl ih =>
    simp only [List.foldl_cons, List.any_cons, ttlStep_eq, ih, Bool.or_assoc]

theorem foldl_events_ttlStep (now : Int) (evs : List Event) (a b c : Bool) :
    evs.foldl (fun acc e => e.currentMatches.foldl (ttlStep now) acc) (a, b, c) =
      ( a || (evs.flatMap (fun e => e.currentMatches)).any inProgressB
      , b || (evs.flatMap (fun e => e.currentMatches)).any (recentlyCompletedB now)
      , c || (evs.flatMap (fun e => e.currentMatches)).any pendingB ) := by
  induction evs generalizing a b c with
  | nil => simp
  | cons hd tl ih =>
    simp only [List.foldl_cons, foldl_ttlStep, ih, List.flatMap_cons, List.any_append,
      Bool.or_assoc]

/-- C2: `calculateDynamicTTL` inspects only `events[*].currentMatches[*]` and
returns, first matching row winning: 15 if any match is in progress; else 120
if any match completed less than 300 seconds before `now`; else 600 if any
match is pending; else 1800. -/
theorem calculateDynamicTTL_policy (now : Int) (t : Tournament) :
    calculateDynamicTTL now t =
      (let ms := t.events.flatMap (fun e => e.currentMatches)
       if ms.any inProgressB then 15
       else if ms.any (recentlyCompletedB now) then 120
       else if ms.any pendingB then 600
       else 1800) := by
  unfold calculateDynamicTTL
  rw [foldl_events_ttlStep]
  simp

/-! ## Composite cache (packages/backend/src/cache/FallbackCacheService.ts)

A backend (`ICacheService` implementation) is modelled by its observable
behaviour: the key → (value, ttlSeconds) content its `get` currently reports,
plus two fault flags (`failGet` / `failSet`) saying whether the corresponding
operation throws. -/

structure Backend (V : Type) where
  name : String
  store : List (String × (V × Nat))
  failGet : Bool
  failSet : Bool
deriving DecidableEq, Repr

/-- A single backend's `get`: the stored value, or null. -/
def bGet {V : Type} (b : Backend V) (k : String) : Option V :=
  (alGet b.store k).map Prod.fst

/-- `FallbackCacheService.get`: iterate the backends in order; a backend that
faults is logged and skipped; the first non-null value is returned; null only
after every backend was consulted. -/
def compositeGet {V : Type} (bs : List (Backend V)) (k : String) : Option V :=
  match bs with
  | [] => none
  | b :: rest =>
    if b.failGet then compositeGet rest k
    else
      match bGet b k with
      | some v => some v
      | none => compositeGet rest k

/-- The effect of `cache.set(key, value, ttlSeconds)` on one backend inside
`FallbackCacheService.set`: a faulting backend is left unchanged (its error is
collected), a healthy one overwrites the key. -/
def setOneBackend {V : Type} (b : Backend V) (k : String) (v : V) (ttl : Nat) : Backend V :=
  if b.failSet then b else { b with store := alSet b.store k (v, ttl) }

/-- `FallbackCacheService.set`: dispatch the write to every backend
(`Promise.all`), collect the errors; throw if every backend failed, otherwise
report success together with a partial-failure warning flag
(`errors.length > 0`). -/
def compositeSet {V : Type} (bs : List (Backend V)) (k : String) (v : V) (ttl : Nat) :
    Except String (List (Backend V) × Bool) :=
  let bs2 := bs.map (fun b => setOneBackend b k v ttl)
  let failures := bs.countP (fun b => b.failSet)
  if failures = bs.length then
    Except.error ("All caches failed to SET key " ++ k ++ ": " ++
      String.intercalate ", " ((bs.filter (fun b => b.failSet)).map (fun b => b.name)))
  else
    Except.ok (bs2, decide (0 < failures))

theorem compositeSet_all_fail {V : Type} (bs : List (Backend V)) (k : String) (v : V)
    (ttl : Nat) (h : ∀ b ∈ bs, b.failSet = true) :
    ∃ msg, compositeSet bs k v ttl = Except.error msg := by
  refine ⟨"All caches failed to SET key " ++ k ++ ": " ++
    String.intercalate ", " ((bs.filter (fun b => b.failSet)).map (fun b => b.name)), ?_⟩
  simp [compositeSet, List.countP_eq_length.mpr h]

theorem compositeSet_ok {V : Type} (bs : List (Backend V)) (k : String) (v : V)
    (ttl : Nat) (h : ∃ b ∈ bs, b.failSet = false) :
    compositeSet bs k v ttl =
      Except.ok (bs.map (fun b => setOneBackend b k v ttl),
        decide (0 < bs.countP (fun b => b.failSet))) := by
  unfold compositeSet
  rw [if_neg]
  intro hc
  obtain ⟨b, hb, hfs⟩ := h
  have := List.countP_eq_length.mp hc b hb
  simp [hfs] at this

/-- C5: for every key, value and positive TTL, the composite `set` dispatches
to every backend (each healthy backend ends up holding `(k, v)`, faulted ones
are untouched); it reports success — with a warning flag exactly when some
backend faulted — whenever at least one backend succeeded, and it fails
exactly when every backend faulted. -/
theorem compositeSet_partial_failure {V : Type} (bs : List (Backend V)) (k : String)
    (v : V) (ttl : Nat) (_hne : bs ≠ []) (_httl : 0 < ttl) :
    ((∃ b ∈ bs, b.failSet = false) →
      ∃ w, compositeSet bs k v ttl = Except.ok (bs.map (fun b => setOneBackend b k v ttl), w)
        ∧ (w = true ↔ ∃ b ∈ bs, b.failSet = true)
        ∧ ∀ b ∈ bs, b.failSet = false → bGet (setOneBackend b k v ttl) k = some v)
    ∧ ((∀ b ∈ bs, b.failSet = true) → ∃ msg, compositeSet bs k v ttl = Except.error msg) := by
  constructor
  · intro h
    refine ⟨_, compositeSet_ok bs k v ttl h, ?_, ?_⟩
    · simp [List.countP_pos_iff]
    · intro b _ hb
      simp [setOneBackend, hb, bGet, alGet_alSet_self]
  · exact compositeSet_all_fail bs k v ttl

def witnessBackendHealthy : Backend Nat :=
  { name := "InMemoryCache", store := [], failGet := false, failSet := false }

def witnessBackendFaulted : Backend Nat :=
  { name := "RedisCache", store := [], failGet := true, failSet := true }

theorem compositeSet_partial_failure_witness :
    ∃ w, compositeSet [witnessBackendFaulted, witnessBackendHealthy] "tournament:demo" 7 60
        = Except.ok ([witnessBackendFaulted, witnessBackendHealthy].map
            (fun b => setOneBackend b "tournament:demo" 7 60), w)
      ∧ (w = true ↔ ∃ b ∈ [witnessBackendFaulted, witnessBackendHealthy], b.failSet = true)
      ∧ ∀ b ∈ [witnessBackendFaulted, witnessBackendHealthy], b.failSet = false →
          bGet (setOneBackend b "tournament:demo" 7 60) "tournament:demo" = some 7 :=
  (compositeSet_partial_failure [witnessBackendFaulted, witnessBackendHealthy]
    "tournament:demo" 7 60 (by decide) (by decide)).1
    ⟨witnessBackendHealthy, by decide, by decide⟩

/-- C6: the composite `get` consults backends in preference order, skips every
faulting backend, and returns the first non-null value; it is null exactly
when every backend was consulted and none produced a value; in particular with
`[A, B]`, if A faults on reads and B holds `(k, v)`, `get k` returns `v`. -/
theorem compositeGet_fallback {V : Type} (bs : List (Backend V)) (k : String) :
    (compositeGet bs k = bs.findSome? (fun b => if b.failGet then none else bGet b k))
    ∧ (compositeGet bs k = none ↔ ∀ b ∈ bs, b.failGet = true ∨ bGet b k = none)
    ∧ (∀ (A B : Backend V) (v : V), A.failGet = true → B.failGet = false →
        bGet B k = some v → compositeGet [A, B] k = some v) := by
  have hmain : ∀ (l : List (Backend V)),
      compositeGet l k = l.findSome? (fun b => if b.failGet then none else bGet b k) := by
    intro l
    induction l with
    | nil => simp [compositeGet]
    | cons b rest ih =>
      by_cases hf : b.failGet
      · simp [compositeGet, hf, List.findSome?_cons, ih]
      · cases hv : bGet b k <;> simp [compositeGet, hf, hv, List.findSome?_cons, ih]
  refine ⟨hmain bs, ?_, ?_⟩
  · rw [hmain bs]
    rw [List.findSome?_eq_none_iff]
    constructor
    · intro h b hb
      have := h b hb
      by_cases hf : b.failGet
      · exact Or.inl hf
      · simp [hf] at this
        exact Or.inr this
    · intro h b hb
      rcases h b hb with hf | hn
      · simp [hf]
      · simp [hn]
  · intro A B v hA hBf hB
    simp [compositeGet, hA, hBf, hB]

def witnessReadFaultedA : Backend Nat :=
  { name := "RedisCache", store := [("k", (99, 60))], failGet := true, failSet := false }

def witnessReadHealthyB : Backend Nat :=
  { name := "InMemoryCache", store := [("k", (42, 60))], failGet := false, failSet := false }

theorem compositeGet_fallback_witness :
    compositeGet [witnessReadFaultedA, witnessReadHealthyB] "k" = some 42 :=
  (compositeGet_fallback [witnessReadFaultedA, witnessReadHealthyB] "k").2.2
    witnessReadFaultedA witnessReadHealthyB 42 (by decide) (by decide) (by decide)

/-! ## In-memory backend (packages/backend/src/cache/InMemoryCacheService.ts)

The JavaScript `Map` is modelled as a function from keys to optional entries
(a `Map` never holds two entries for one key). `Date.now()` is passed as an
explicit `now : Int` (milliseconds). Every operation is a total function:
`InMemoryCacheService` never throws. -/

structure CacheEntry (V : Type) where
  data : V
  createdAt : Int
  expiresAt : Int

structure CacheMetadata where
  key : String
  ttl : Int
  createdAt : Int
  expiresAt : Int
deriving DecidableEq, Repr

structure InMemoryCache (V : Type) where
  entries : String → Option (CacheEntry V)

/-- `InMemoryCacheService.set`: unconditionally store
`{ data, createdAt: now, expiresAt: now + ttlSeconds * 1000 }`. -/
def imSet {V : Type} (c : InMemoryCache V) (k : String) (v : V) (ttlSeconds now : Int) :
    InMemoryCache V :=
  ⟨fun k2 => if k2 = k then some ⟨v, now, now + ttlSeconds * 1000⟩ else c.entries k2⟩

/-- `InMemoryCacheService.get`: null on absent; lazily delete and return null
on `expiresAt <= Date.now()`; otherwise the stored data. Returns the value
together with the (possibly pruned) cache. -/
def imGet {V : Type} (c : InMemoryCache V) (k : String) (now : Int) :
    Option V × InMemoryCache V :=
  match c.entries k with
  | none => (none, c)
  | some e =>
    if e.expiresAt ≤ now then
      (none, ⟨fun k2 => if k2 = k then none else c.entries k2⟩)
    else (some e.data, c)

/-- `InMemoryCacheService.exists`: same lazy expiry as `get`. -/
def imExists {V : Type} (c : InMemoryCache V) (k : String) (now : Int) :
    Bool × InMemoryCache V :=
  match c.entries k with
  | none => (false, c)
  | some e =>
    if e.expiresAt ≤ now then
      (false, ⟨fun k2 => if k2 = k then none else c.entries k2⟩)
    else (true, c)

/-- `InMemoryCacheService.getMetadata`: same lazy expiry; on a live entry the
remaining TTL is `Math.floor((expiresAt - now) / 1000)`. -/
def imGetMetadata {V : Type} (c : InMemoryCache V) (k : String) (now : Int) :
    Option CacheMetadata × InMemoryCache V :=
  match c.entries k with
  | none => (none, c)
  | some e =>
    if e.expiresAt ≤ now then
      (none, ⟨fun k2 => if k2 = k then none else c.entries k2⟩)
    else (some ⟨k, Int.fdiv (e.expiresAt - now) 1000, e.createdAt, e.expiresAt⟩, c)

/-- C10: `InMemoryCacheService.set` accepts any integer `ttlSeconds`,
including `ttlSeconds ≤ 0` (a caller error under the cache contract), without
raising: it stores an entry whose `expiresAt` is not in the future, so any
following `get` at time `now2 ≥ now` returns null and removes the entry,
`exists` returns false, and `getMetadata` returns null. -/
theorem imSet_nonpositive_ttl {V : Type} (c : InMemoryCache V) (k : String) (v : V)
    (ttlSeconds now now2 : Int) (httl : ttlSeconds ≤ 0) (hnow : now ≤ now2) :
    (∃ e, (imSet c k v ttlSeconds now).entries k = some e ∧ e.expiresAt ≤ now)
    ∧ (imGet (imSet c k v ttlSeconds now) k now2).1 = none
    ∧ ((imGet (imSet c k v ttlSeconds now) k now2).2.entries k = none)
    ∧ (imExists (imSet c k v ttlSeconds now) k now2).1 = false
    ∧ (imGetMetadata (imSet c k v ttlSeconds now) k now2).1 = none := by
  have hentry : (imSet c k v ttlSeconds now).entries k =
      some ⟨v, now, now + ttlSeconds * 1000⟩ := by simp [imSet]
  have hexp : now + ttlSeconds * 1000 ≤ now2 := by nlinarith
  refine ⟨⟨_, hentry, show now + ttlSeconds * 1000 ≤ now by nlinarith⟩, ?_, ?_, ?_, ?_⟩
  · simp [imGet, hentry, hexp]
  · simp [imGet, hentry, hexp]
  · simp [imExists, hentry, hexp]
  · simp [imGetMetadata, hentry, hexp]

theorem imSet_nonpositive_ttl_witness :
    ((imGet (imSet (⟨fun _ => none⟩ : InMemoryCache Nat) "k" 5 0 1000) "k" 1000).1 = none)
    ∧ (imExists (imSet (⟨fun _ => none⟩ : InMemoryCache Nat) "k" 5 0 1000) "k" 1000).1 = false :=
  ⟨(imSet_nonpositive_ttl (⟨fun _ => none⟩ : InMemoryCache Nat) "k" 5 0 1000 1000
      (by norm_num) (by norm_num)).2.1,
   (imSet_nonpositive_ttl (⟨fun _ => none⟩ : InMemoryCache Nat) "k" 5 0 1000 1000
      (by norm_num) (by norm_num)).2.2.2.1⟩

/-! ## Upstream retry loop (packages/backend/src/startgg.ts, `executeQueryWithRetry`)

One logical GraphQL request is a function from attempt index to the attempt's
outcome. `RetryTrace` records how many attempts were performed, the sleeps
taken between attempts (in order), and the final outcome. -/

def MAX_RETRIES : Nat := 3

def RETRY_DELAY : Nat := 2000

inductive AttemptResult
  | success
  | httpStatus (status : Nat) (msg : String)
  | networkErr (msg : String)
deriving DecidableEq, Repr

structure RetryTrace where
  attempts : Nat
  delays : List Nat
  result : Except String Unit
deriving Repr

/-- `executeQueryWithRetry(query, variables, retryCount)`: on HTTP 429 with
`retryCount < MAX_RETRIES`, sleep `RETRY_DELAY * 2 ^ retryCount` and retry;
a 401 becomes an authentication error, a 5xx a server error, any other axios
failure an API error; a non-axios (network) error is rethrown. -/
def executeQueryWithRetry (responses : Nat → AttemptResult) (retryCount : Nat) :
    RetryTrace :=
  match responses retryCount with
  | AttemptResult.success => ⟨1, [], Except.ok ()⟩
  | AttemptResult.httpStatus status msg =>
    if h : status = 429 ∧ retryCount < MAX_RETRIES then
      let backoffDelay := RETRY_DELAY * 2 ^ retryCount
      let rest := executeQueryWithRetry responses (retryCount + 1)
      ⟨rest.attempts + 1, backoffDelay :: rest.delays, rest.result⟩
    else if status = 401 then
      ⟨1, [], Except.error "Authentication Error: Invalid or expired start.gg API token"⟩
    else if 500 ≤ status then
      ⟨1, [], Except.error ("Server Error: start.gg API is temporarily unavailable (" ++
        toString status ++ ")")⟩
    else
      ⟨1, [], Except.error ("API Error: " ++ msg ++ " (Status: " ++ toString status ++ ")")⟩
  | AttemptResult.networkErr msg => ⟨1, [], Except.error msg⟩
termination_by MAX_RETRIES - retryCount
decreasing_by omega

theorem executeQueryWithRetry_persistent429_general
    (responses : Nat → AttemptResult) (msg : String)
    (h : ∀ i, responses i = AttemptResult.httpStatus 429 msg) :
    ∀ n rc, rc ≤ MAX_RETRIES → MAX_RETRIES - rc = n →
      executeQueryWithRetry responses rc =
        ⟨MAX_RETRIES + 1 - rc,
         (List.range (MAX_RETRIES - rc)).map (fun i => RETRY_DELAY * 2 ^ (rc + i)),
         Except.error ("API Error: " ++ msg ++ " (Status: " ++ toString 429 ++ ")")⟩ := by
  intro n
  induction n with
  | zero =>
    intro rc hrc hn
    have hrc2 : rc = MAX_RETRIES := by omega
    subst hrc2
    unfold executeQueryWithRetry
    simp only [h]
    norm_num [MAX_RETRIES]
  | succ n ih =>
    intro rc hrc hn
    unfold executeQueryWithRetry
    simp only [h]
    rw [dif_pos ⟨trivial, by omega⟩]
    have hrec := ih (rc + 1) (by omega) (by omega)
    simp only [hrec]
    have hatt : MAX_RETRIES + 1 - (rc + 1) + 1 = MAX_RETRIES + 1 - rc := by omega
    have hdel : (RETRY_DELAY * 2 ^ rc) :: (List.range (MAX_RETRIES - (rc + 1))).map
          (fun i => RETRY_DELAY * 2 ^ (rc + 1 + i)) =
        (List.range (MAX_RETRIES - rc)).map (fun i => RETRY_DELAY * 2 ^ (rc + i)) := by
      have hr : MAX_RETRIES - rc = (MAX_RETRIES - (rc + 1)) + 1 := by omega
      rw [hr, List.range_succ_eq_map, List.map_cons, List.map_map]
      refine congrArg₂ List.cons (by simp) (List.map_congr_left ?_)
      intro i _
      simp only [Function.comp_apply, Nat.succ_eq_add_one]
      ring
    rw [hatt, hdel]

/-- C7: against a persistently rate-limited (HTTP 429) upstream, a logical
request is attempted exactly `MAX_RETRIES + 1 = 4` times, the sleep after
attempt `i` is `RETRY_DELAY * 2 ^ i` ms, and after the last attempt the
rate-limit failure surfaces as an error to the caller. -/
theorem executeQueryWithRetry_persistent429 (responses : Nat → AttemptResult)
    (msg : String) (h : ∀ i, responses i = AttemptResult.httpStatus 429 msg) :
    executeQueryWithRetry responses 0 =
      ⟨MAX_RETRIES + 1,
       (List.range MAX_RETRIES).map (fun i => RETRY_DELAY * 2 ^ i),
       Except.error ("API Error: " ++ msg ++ " (Status: " ++ toString 429 ++ ")")⟩ := by
  have := executeQueryWithRetry_persistent429_general responses msg h MAX_RETRIES 0
    (by omega) (by omega)
  simpa using this

theorem executeQueryWithRetry_persistent429_witness :
    executeQueryWithRetry (fun _ => AttemptResult.httpStatus 429 "Request failed") 0 =
      ⟨4, [2000, 4000, 8000], Except.error "API Error: Request failed (Status: 429)"⟩ := by
  have := executeQueryWithRetry_persistent429
    (fun _ => AttemptResult.httpStatus 429 "Request failed") "Request failed"
    (fun i => rfl)
  rw [this]
  rfl

/-! ## Set-page loop (packages/backend/src/startgg.ts, `loadEventDetails`)

The `while (hasMorePages && page <= 10)` loop over one phase group. A phase
group is abstracted by the length of each returned page (`pageLen page`);
`loadPhaseGroupSets` swallows its own errors into an empty page, and an empty
page (or a page shorter than 30) stops the loop. `remaining` is `11 - page`,
so `remaining = 0` is exactly the loop condition `page <= 10` failing; the
function counts how many page requests are issued. -/

def setsLoop (pageLen : Nat → Nat) : Nat → Nat → Nat
  | _, 0 => 0
  | page, remaining + 1 =>
    let len := pageLen page
    if 0 < len then
      if len < 30 then 1
      else 1 + setsLoop pageLen (page + 1) remaining
    else 1

/-- Page `page` (1-indexed) of a phase group holding `m` sets, fetched with
`perPage: 30`, has `min 30 (m - 30*(page-1))` sets. -/
def pageLenOf (m : Nat) (page : Nat) : Nat := min 30 (m - 30 * (page - 1))

/-- Number of page requests `loadEventDetails` issues for one phase group of
`m` sets: the loop starts at `page = 1` with the page ceiling 10. -/
def fetchRequests (m : Nat) : Nat := setsLoop (pageLenOf m) 1 10

theorem setsLoop_le (pageLen : Nat → Nat) (page remaining : Nat) :
    setsLoop pageLen page remaining ≤ remaining := by
  induction remaining generalizing page with
  | zero => simp [setsLoop]
  | succ n ih =>
    simp only [setsLoop]
    split
    · split
      · omega
      · have := ih (page + 1)
        omega
    · omega

theorem setsLoop_exact (k : Nat) : ∀ (pageLen : Nat → Nat) (page remaining : Nat),
    k < remaining →
    (∀ i, i < k → pageLen (page + i) = 30) →
    0 < pageLen (page + k) → pageLen (page + k) < 30 →
    setsLoop pageLen page remaining = k + 1 := by
  induction k with
  | zero =>
    intro pageLen page remaining hrem hfull hpos hshort
    obtain ⟨n, rfl⟩ : ∃ n, remaining = n + 1 := ⟨remaining - 1, by omega⟩
    simp only [Nat.add_zero] at hpos hshort
    simp only [setsLoop]
    rw [if_pos hpos, if_pos hshort]
  | succ k ih =>
    intro pageLen page remaining hrem hfull hpos hshort
    obtain ⟨n, rfl⟩ : ∃ n, remaining = n + 1 := ⟨remaining - 1, by omega⟩
    have h0 : pageLen page = 30 := by
      have := hfull 0 (by omega)
      simpa using this
    simp only [setsLoop]
    rw [if_pos (by omega : 0 < pageLen page), if_neg (by omega : ¬ pageLen page < 30)]
    have hrec := ih pageLen (page + 1) n (by omega)
      (fun i hi => by
        have := hfull (i + 1) (by omega)
        simpa [Nat.add_assoc, Nat.add_comm 1 i] using this)
      (by
        have : page + 1 + k = page + (k + 1) := by omega
        rw [this]
        exact hpos)
      (by
        have : page + 1 + k = page + (k + 1) := by omega
        rw [this]
        exact hshort)
    omega

/-- The page-ceiling counterexample: a phase group of 305 = 10·30 + 5 sets is
fetched in 10 page requests, not the 10 + 1 the claim predicts, because the
loop stops at the `page <= 10` ceiling. -/
theorem fetchRequests_ceiling_counterexample :
    305 = 10 * 30 + 5 ∧ 0 < 5 ∧ 5 < 30 ∧ fetchRequests 305 = 10 ∧ fetchRequests 305 ≠ 10 + 1 := by
  refine ⟨by norm_num, by norm_num, by norm_num, ?_, ?_⟩ <;> decide

/-- C8 (amended): the set-page loop terminates with a page-request count
determined by the data: a phase group whose first page has fewer than 30 sets
is fetched in exactly one page request; one holding `k*30 + r` sets with
`0 < r < 30` is fetched in exactly `k+1` page requests provided `k+1` does not
exceed the page ceiling 10; and no more than 10 pages are ever requested. -/
theorem fetchRequests_spec :
    (∀ m, m < 30 → fetchRequests m = 1)
    ∧ (∀ k r, 0 < r → r < 30 → k + 1 ≤ 10 → fetchRequests (k * 30 + r) = k + 1)
    ∧ (∀ m, fetchRequests m ≤ 10) := by
  refine ⟨?_, ?_, ?_⟩
  · intro m hm
    unfold fetchRequests
    simp only [setsLoop]
    have hlen : pageLenOf m 1 = m := by
      unfold pageLenOf
      omega
    rw [hlen]
    by_cases h0 : 0 < m
    · rw [if_pos h0, if_pos hm]
    · rw [if_neg h0]
  · intro k r hr hr30 hk
    unfold fetchRequests
    apply setsLoop_exact k (pageLenOf (k * 30 + r)) 1 10 (by omega)
    · intro i hi
      unfold pageLenOf
      omega
    · unfold pageLenOf
      omega
    · unfold pageLenOf
      omega
  · intro m
    exact setsLoop_le (pageLenOf m) 1 10

theorem fetchRequests_spec_witness :
    fetchRequests 5 = 1 ∧ fetchRequests 65 = 3 ∧ fetchRequests 65 ≤ 10 :=
  ⟨fetchRequests_spec.1 5 (by norm_num),
   fetchRequests_spec.2.1 2 5 (by norm_num) (by norm_num) (by norm_num),
   fetchRequests_spec.2.2 65⟩

/-! ## Player extraction (packages/backend/src/startgg.ts)

Raw GraphQL values. JavaScript truthiness on ids and strings is modelled over
`Option String`: a missing value is `none`, and the empty string stands for
any falsy present value (`""`, or the number `0` after `toString` would be
truthy, but start.gg ids serialize as non-empty decimal strings). -/

structure RawParticipant where
  id : Option String
  gamerTag : Option String
  userName : Option String
deriving DecidableEq, Repr

structure RawEntrant where
  id : Option String
  name : Option String
  participants : List RawParticipant
deriving DecidableEq, Repr

structure RawSlot where
  entrant : Option RawEntrant
deriving DecidableEq, Repr

structure RawSet where
  slots : List RawSlot
deriving DecidableEq, Repr

structure RawEvent where
  id : Option String
  name : Option String
  slug : Option String
  entrants : Option (List RawEntrant)
deriving DecidableEq, Repr

structure RawTournament where
  id : Option String
  name : Option String
  slug : Option String
  url : Option String
  events : Option (List RawEvent)
deriving DecidableEq, Repr

/-- JavaScript truthiness of an optional string. -/
def truthyStr : Option String → Bool
  | none => false
  | some s => !(s == "")

/-- JavaScript `a || b` on an optional string with a string default. -/
def jsOr (a : Option String) (b : String) : String :=
  match a with
  | none => b
  | some s => if s = "" then b else s

/-- `transformPlayerData(entrant)`. The `Math.random()` suffix of the
placeholder id is abstracted to a fixed string: the placeholder branch is the
target of the claim, not its id. -/
def transformPlayerData (entrant : Option RawEntrant) : Player :=
  match entrant with
  | none => { id := "unknown-random", tag := "Unknown Player", name := none, startggId := none }
  | some e =>
    if truthyStr e.id then
      let participant := e.participants.head?
      { id := e.id.getD ""
        tag := jsOr (participant.bind RawParticipant.gamerTag) (jsOr e.name "Unknown Player")
        name := participant.bind RawParticipant.userName
        startggId := participant.bind RawParticipant.id }
    else { id := "unknown-random", tag := "Unknown Player", name := none, startggId := none }

/-- `transformBasicEventData(rawEvent)`: entrant nodes are filtered only on a
truthy id and then mapped through `transformPlayerData` — with no
deduplication and no filtering of `"Unknown Player"` tags. -/
def transformBasicEventData (raw : RawEvent) : Event :=
  if truthyStr raw.id then
    { id := raw.id.getD ""
      name := jsOr raw.name "Unknown Event"
      slug := jsOr raw.slug "unknown-event"
      brackets := []
      participants :=
        match raw.entrants with
        | some nodes => (nodes.filter (fun e => truthyStr e.id)).map
            (fun e => transformPlayerData (some e))
        | none => []
      currentMatches := [] }
  else
    { id := "unknown-event-random", name := "Unknown Event", slug := "unknown-event",
      brackets := [], participants := [], currentMatches := [] }

/-- `transformBasicTournamentData(rawTournament)`. -/
def transformBasicTournamentData (raw : RawTournament) : Tournament :=
  { id := jsOr raw.id "unknown"
    name := jsOr raw.name "Unknown Tournament"
    slug := jsOr raw.slug "unknown-tournament"
    url := jsOr raw.url ""
    events :=
      match raw.events with
      | some evs => (evs.filter (fun e => truthyStr e.id)).map transformBasicEventData
      | none => [] }

/-- One slot of the `setsData.forEach` in `loadEventDetails`: a slot with a
truthy entrant id contributes its transformed player to `bracketPlayers`
(keyed by id) provided the player has a truthy id and is not tagged
`"Unknown Player"`. -/
def slotStep (acc : List (String × Player)) (slot : RawSlot) : List (String × Player) :=
  match slot.entrant with
  | some e =>
    if truthyStr e.id then
      let player := transformPlayerData (some e)
      if player.id ≠ "" ∧ player.tag ≠ "Unknown Player" then
        alSet acc player.id player
      else acc
    else acc
  | none => acc

def setStep (acc : List (String × Player)) (s : RawSet) : List (String × Player) :=
  s.slots.foldl slotStep acc

/-- The `bracketPlayers` map accumulated over the processed sets (all pages)
of one phase group. -/
def bracketPlayersOf (sets : List RawSet) : List (String × Player) :=
  sets.foldl setStep []

/-- After one phase group: `existingPlayerIds` is the set of current
participant ids; the bracket players not already present are appended. -/
def addGroupParticipants (participants : List Player) (sets : List RawSet) : List Player :=
  let bracketPlayers := bracketPlayersOf sets
  let existingIds := participants.map Player.id
  let newPlayers := (bracketPlayers.map Prod.snd).filter
    (fun p => decide (p.id ∉ existingIds))
  participants ++ newPlayers

/-- The participant-updating part of `loadEventDetails`: fold the phase groups
(each given by the list of sets its page loop processed) over the event's
initial participants. -/
def loadEventParticipants (ev : Event) (groups : List (List RawSet)) : List Player :=
  groups.foldl addGroupParticipants ev.participants

/-- `getTournamentBySlug`: transform the tournament query result, then run
`loadEventDetails` on each event (a failed event is caught and skipped, which
corresponds to an empty group list). `groups i` is the per-phase-group set
data for event `i`. -/
def assembleTournament (raw : RawTournament) (groups : Nat → List (List RawSet)) :
    Tournament :=
  let t := transformBasicTournamentData raw
  { t with events := t.events.enum.map (fun p =>
      { p.2 with participants := loadEventParticipants p.2 (groups p.1) }) }

def rawEntrantNoTag : RawEntrant := { id := some "7", name := none, participants := [] }

def rawEventDemo : RawEvent :=
  { id := some "1", name := some "Singles", slug := some "singles"
    entrants := some [rawEntrantNoTag, rawEntrantNoTag] }

def rawTournamentDemo : RawTournament :=
  { id := some "10", name := some "Demo", slug := some "demo", url := some ""
    events := some [rawEventDemo] }

/-- C9 counterexample: an upstream entrant sample carrying the same entrant id
twice, with no gamer tag and no name, yields an assembled tournament whose
event has two participant entries for id "7", both tagged "Unknown Player" —
refuting both the at-most-one-entry-per-id and the no-"Unknown Player" parts
of the claim. -/
theorem assembleTournament_unknown_counterexample :
    ((assembleTournament rawTournamentDemo (fun _ => [])).events.map
        (fun e => e.participants.countP (fun p => p.id == "7"))) = [2]
    ∧ (assembleTournament rawTournamentDemo (fun _ => [])).events.any
        (fun e => e.participants.any (fun p => p.tag == "Unknown Player")) = true := by
  constructor <;> decide

theorem foldl_preserves {α β : Type} (P : α → Prop) (f : α → β → α)
    (hstep : ∀ a b, P a → P (f a b)) : ∀ (l : List β) (a : α), P a → P (l.foldl f a) := by
  intro l
  induction l with
  | nil => intro a ha; exact ha
  | cons hd tl ih =>
    intro a ha
    exact ih (f a hd) (hstep a hd ha)

theorem alSet_keys {α : Type} (l : List (String × α)) (k : String) (v : α) :
    (alSet l k v).map Prod.fst =
      if k ∈ l.map Prod.fst then l.map Prod.fst else l.map Prod.fst ++ [k] := by
  induction l with
  | nil => simp [alSet]
  | cons hd tl ih =>
    obtain ⟨k2, v2⟩ := hd
    by_cases h : k2 = k
    · subst h
      simp [alSet]
    · have hk2 : ¬ k = k2 := fun hh => h hh.symm
      simp only [alSet, if_neg h, List.map_cons, List.mem_cons]
      rw [ih]
      by_cases hmem : k ∈ tl.map Prod.fst
      · simp [hmem, hk2]
      · simp [hmem, hk2]

theorem alSet_keys_nodup {α : Type} (l : List (String × α)) (k : String) (v : α)
    (h : (l.map Prod.fst).Nodup) : ((alSet l k v).map Prod.fst).Nodup := by
  rw [alSet_keys]
  by_cases hmem : k ∈ l.map Prod.fst
  · simpa [hmem] using h
  · simp only [hmem, if_false]
    rw [List.nodup_append]
    refine ⟨h, List.nodup_singleton k, ?_⟩
    intro a ha hak
    rw [List.mem_singleton] at hak
    exact hmem (hak ▸ ha)

theorem alSet_mem {α : Type} (l : List (String × α)) (k : String) (v : α) :
    ∀ kp ∈ alSet l k v, kp = (k, v) ∨ kp ∈ l := by
  induction l with
  | nil => simp [alSet]
  | cons hd tl ih =>
    obtain ⟨k2, v2⟩ := hd
    by_cases h : k2 = k
    · subst h
      simp only [alSet, if_pos rfl]
      intro kp hkp
      rcases List.mem_cons.mp hkp with h1 | h2
      · exact Or.inl h1
      · exact Or.inr (List.mem_cons_of_mem _ h2)
    · simp only [alSet, if_neg h]
      intro kp hkp
      rcases List.mem_cons.mp hkp with h1 | h2
      · exact Or.inr (h1 ▸ List.mem_cons_self _ _)
      · rcases ih kp h2 with h3 | h4
        · exact Or.inl h3
        · exact Or.inr (List.mem_cons_of_mem _ h4)

/-- Invariant of the `bracketPlayers` map: keys are distinct, each key is its
player's id, and no player is the "Unknown Player" placeholder. -/
def GoodAL (l : List (String × Player)) : Prop :=
  (l.map Prod.fst).Nodup ∧ ∀ kp ∈ l, kp.1 = kp.2.id ∧ kp.2.tag ≠ "Unknown Player"

theorem slotStep_good (acc : List (String × Player)) (slot : RawSlot)
    (h : GoodAL acc) : GoodAL (slotStep acc slot) := by
  unfold slotStep
  cases slot.entrant with
  | none => exact h
  | some e =>
    by_cases ht : truthyStr e.id
    · simp only [ht, if_true]
      by_cases hc : (transformPlayerData (some e)).id ≠ "" ∧
          (transformPlayerData (some e)).tag ≠ "Unknown Player"
      · simp only [if_pos hc]
        refine ⟨alSet_keys_nodup _ _ _ h.1, ?_⟩
        intro kp hkp
        rcases alSet_mem _ _ _ kp hkp with h1 | h2
        · subst h1
          exact ⟨rfl, hc.2⟩
        · exact h.2 kp h2
      · simp only [if_neg hc]
        exact h
    · simp only [ht, if_false]
      exact h

theorem bracketPlayersOf_good (sets : List RawSet) : GoodAL (bracketPlayersOf sets) := by
  unfold bracketPlayersOf
  refine foldl_preserves GoodAL setStep ?_ sets [] ?_
  · intro acc s hacc
    exact foldl_preserves GoodAL slotStep slotStep_good s.slots acc hacc
  · exact ⟨List.nodup_nil, by simp⟩

/-- Invariant on a participants list: pairwise-distinct ids and no
"Unknown Player" placeholder. -/
def CleanParticipants (l : List Player) : Prop :=
  (l.map Player.id).Nodup ∧ ∀ p ∈ l, p.tag ≠ "Unknown Player"

theorem addGroupParticipants_clean (ps : List Player) (sets : List RawSet)
    (h : CleanParticipants ps) : CleanParticipants (addGroupParticipants ps sets) := by
  have hg := bracketPlayersOf_good sets
  rw [show addGroupParticipants ps sets = ps ++
      ((bracketPlayersOf sets).map Prod.snd).filter
        (fun p => decide (p.id ∉ ps.map Player.id)) from rfl]
  have hids : ((bracketPlayersOf sets).map Prod.snd).map Player.id =
      (bracketPlayersOf sets).map Prod.fst := by
    rw [List.map_map]
    exact List.map_congr_left (fun kp hkp => ((hg.2 kp hkp).1).symm)
  have hsub : List.Sublist
      ((((bracketPlayersOf sets).map Prod.snd).filter
        (fun p => decide (p.id ∉ ps.map Player.id))).map Player.id)
      (((bracketPlayersOf sets).map Prod.snd).map Player.id) :=
    (List.filter_sublist _).map Player.id
  have hnodupNew : ((((bracketPlayersOf sets).map Prod.snd).filter
      (fun p => decide (p.id ∉ ps.map Player.id))).map Player.id).Nodup := by
    refine List.Nodup.sublist hsub ?_
    rw [hids]
    exact hg.1
  constructor
  · rw [List.map_append, List.nodup_append]
    refine ⟨h.1, hnodupNew, ?_⟩
    intro x hx hx2
    rcases List.mem_map.mp hx2 with ⟨p, hp, hpid⟩
    have hpred := (List.mem_filter.mp hp).2
    rw [hpid] at hpred
    simp only [decide_eq_true_eq] at hpred
    exact hpred hx
  · intro p hp
    rcases List.mem_append.mp hp with h1 | h2
    · exact h.2 p h1
    · rcases List.mem_map.mp (List.mem_filter.mp h2).1 with ⟨kp, hkp, hkp2⟩
      rw [← hkp2]
      exact (hg.2 kp hkp).2

/-- C9 (amended): the participants accumulated across phase groups by
`loadEventDetails` are deduplicated by player id against the existing
participants and never contain a synthesized "Unknown Player" entry — provided
the event's initial participant sample (from the tournament-level entrant
list, which `transformBasicEventData` neither deduplicates nor filters)
already has distinct ids and no "Unknown Player" tag. -/
theorem loadEventParticipants_clean (ev : Event) (groups : List (List RawSet))
    (hnodup : (ev.participants.map Player.id).Nodup)
    (hnotag : ∀ p ∈ ev.participants, p.tag ≠ "Unknown Player") :
    ((loadEventParticipants ev groups).map Player.id).Nodup
    ∧ ∀ p ∈ loadEventParticipants ev groups, p.tag ≠ "Unknown Player" := by
  have := foldl_preserves CleanParticipants addGroupParticipants
    (fun ps sets hp => addGroupParticipants_clean ps sets hp)
    groups ev.participants ⟨hnodup, hnotag⟩
  exact this

def witnessAlice : RawEntrant :=
  { id := some "1", name := some "Alice"
    participants := [{ id := some "p1", gamerTag := some "Alice", userName := none }] }

def witnessBob : RawEntrant :=
  { id := some "2", name := some "Bob"
    participants := [{ id := some "p2", gamerTag := some "Bob", userName := none }] }

def witnessGroups : List (List RawSet) :=
  [ [ { slots := [{ entrant := some witnessAlice }, { entrant := some witnessBob }] } ]
  , [ { slots := [{ entrant := some witnessBob }, { entrant := none }] } ] ]

def witnessEvent : Event :=
  { id := "1", name := "Singles", slug := "singles", brackets := []
    participants := [transformPlayerData (some witnessAlice)]
    currentMatches := [] }

theorem loadEventParticipants_clean_witness :
    ((loadEventParticipants witnessEvent witnessGroups).map Player.id).Nodup
    ∧ ∀ p ∈ loadEventParticipants witnessEvent witnessGroups,
        p.tag ≠ "Unknown Player" :=
  loadEventParticipants_clean witnessEvent witnessGroups (by decide) (by decide)

/-! ## Tournament router (packages/backend/src/routes/tournament.ts)

`GET /api/tournament/:slug`. The handler's environment is passed explicitly:
`bs` is the composite cache's backend list, `fetch` the outcome
`startGgApi.getTournamentBySlug(slug)` would produce (only consulted on a
cache miss), `refreshQ` the `refresh=true` query flag. The entire body sits in
one `try`/`catch` whose catch answers HTTP 500 with the error's message, so a
rejected `cacheService.set` (all backends faulted) also lands there. The hit
branch's response metadata is not modelled (no claim inspects it). -/

inductive UpstreamFailure
  | notFound (slug : String)
  | queryError (msg : String)
deriving DecidableEq, Repr

/-- The `error.message` the router's catch block reports for each upstream
failure; `getTournamentBySlug` throws the not-found message when the
tournament query returns no tournament. -/
def upstreamErrorMessage : UpstreamFailure → String
  | UpstreamFailure.notFound slug =>
    "Tournament with slug \"" ++ slug ++ "\" not found or tournament data is invalid"
  | UpstreamFailure.queryError msg => msg

inductive RouterOutcome (V : Type)
  | hit (data : V)
  | fresh (data : V) (ttl : Nat)
  | err (status : Nat) (msg : String)
deriving DecidableEq, Repr

/-- HTTP status of a handler outcome (`res.json` answers 200). -/
def statusCodeOf {V : Type} : RouterOutcome V → Nat
  | RouterOutcome.hit _ => 200
  | RouterOutcome.fresh _ _ => 200
  | RouterOutcome.err s _ => s

/-- The GET handler; returns the response outcome and the backends after the
request (the cache write's effect). -/
def tournamentGetHandler (now : Int) (bs : List (Backend Tournament)) (slug : String)
    (refreshQ : Bool) (fetch : Except UpstreamFailure Tournament) :
    RouterOutcome Tournament × List (Backend Tournament) :=
  let cacheKey := "tournament:" ++ slug
  match (if refreshQ then none else compositeGet bs cacheKey) with
  | some t => (RouterOutcome.hit t, bs)
  | none =>
    match fetch with
    | Except.error e => (RouterOutcome.err 500 (upstreamErrorMessage e), bs)
    | Except.ok tournament =>
      let ttl := calculateDynamicTTL now tournament
      match compositeSet bs cacheKey tournament ttl with
      | Except.ok (bs2, _) => (RouterOutcome.fresh tournament ttl, bs2)
      | Except.error msg => (RouterOutcome.err 500 msg, bs)

def demoTournament : Tournament :=
  { id := "1", name := "Demo", slug := "demo", url := "", events := [] }

def deadRedis : Backend Tournament :=
  { name := "RedisCache", store := [], failGet := true, failSet := true }

def deadMemory : Backend Tournament :=
  { name := "InMemoryCache", store := [], failGet := true, failSet := true }

def aliveMemory : Backend Tournament :=
  { name := "InMemoryCache", store := [], failGet := false, failSet := false }

/-- C3 counterexample: when the upstream fetch succeeds but the cache write
faults (every composite backend rejects its `set`), the composite `set` throws
and the router's catch-all answers a 500 error — the request does not succeed
and the fresh data is not returned. -/
theorem cacheWriteFault_counterexample :
    (tournamentGetHandler 0 [deadRedis, deadMemory] "demo" false
        (Except.ok demoTournament)).1
      = RouterOutcome.err 500
          "All caches failed to SET key tournament:demo: RedisCache, InMemoryCache"
    ∧ statusCodeOf (tournamentGetHandler 0 [deadRedis, deadMemory] "demo" false
        (Except.ok demoTournament)).1 = 500
    ∧ statusCodeOf (tournamentGetHandler 0 [deadRedis, deadMemory] "demo" false
        (Except.ok demoTournament)).1 ≠ 200 := by
  refine ⟨?_, ?_, ?_⟩ <;> decide

/-- C3 (amended): if the upstream fetch succeeds and at least one backend
accepts the write, faults of the remaining backends are recovered locally and
the request succeeds with the fresh data and `cached: false`; only when every
backend's write faults does the composite `set` throw, turning the request
into a 500 failure. -/
theorem cacheWriteFault_recovered (now : Int) (bs : List (Backend Tournament))
    (slug : String) (t : Tournament)
    (hmiss : compositeGet bs ("tournament:" ++ slug) = none)
    (hok : ∃ b ∈ bs, b.failSet = false) :
    (tournamentGetHandler now bs slug false (Except.ok t)).1
      = RouterOutcome.fresh t (calculateDynamicTTL now t) := by
  have hset := compositeSet_ok bs ("tournament:" ++ slug) t (calculateDynamicTTL now t) hok
  simp [tournamentGetHandler, hmiss, hset]

theorem cacheWriteFault_recovered_witness :
    (tournamentGetHandler 0 [deadRedis, aliveMemory] "demo" false
        (Except.ok demoTournament)).1
      = RouterOutcome.fresh demoTournament 1800 :=
  cacheWriteFault_recovered 0 [deadRedis, aliveMemory] "demo" demoTournament
    (by decide) ⟨aliveMemory, by decide, rfl⟩

/-- C4 counterexample: a not-found upstream answer surfaces with HTTP status
500, not a 404-class status — the router's catch-all maps every error to 500. -/
theorem notFound_counterexample :
    statusCodeOf (tournamentGetHandler 0 [aliveMemory] "demo" false
        (Except.error (UpstreamFailure.notFound "demo"))).1 = 500
    ∧ statusCodeOf (tournamentGetHandler 0 [aliveMemory] "demo" false
        (Except.error (UpstreamFailure.notFound "demo"))).1 ≠ 404 := by
  constructor <;> decide

/-- C4 (amended): when the upstream reports the tournament missing, the
request surfaces a 500-class result carrying the not-found message (the router
maps every fetch error to HTTP 500), and nothing is written to the cache. -/
theorem notFound_surfaced_500 (now : Int) (bs : List (Backend Tournament)) (slug : String)
    (hmiss : compositeGet bs ("tournament:" ++ slug) = none) :
    tournamentGetHandler now bs slug false
        (Except.error (UpstreamFailure.notFound slug))
      = (RouterOutcome.err 500
          ("Tournament with slug \"" ++ slug ++ "\" not found or tournament data is invalid"),
         bs) := by
  simp [tournamentGetHandler, hmiss, upstreamErrorMessage]

theorem notFound_surfaced_500_witness :
    tournamentGetHandler 0 [aliveMemory] "demo" false
        (Except.error (UpstreamFailure.notFound "demo"))
      = (RouterOutcome.err 500
          "Tournament with slug \"demo\" not found or tournament data is invalid",
         [aliveMemory]) :=
  notFound_surfaced_500 0 [aliveMemory] "demo" (by decide)

/-! ## Concurrent GET requests (single-flight claim)

Interleaving semantics of N concurrent executions of the miss path of
`tournamentGetHandler` for one slug: each request suspends at its await
points — the cache read, the upstream fetch, and the cache write-back — and a
schedule picks which request advances next. The shared state is the cache
content for the slug's key and the number of upstream fetches started. The
source has no in-flight map: a request that observes a miss always proceeds to
its own fetch. -/

inductive ReqPhase (V : Type)
  | checking
  | fetching
  | writing (t : V)
  | doneFresh (t : V)
  | doneHit (t : V)
deriving DecidableEq, Repr

structure FlightState (V : Type) where
  cache : Option V
  fetchCount : Nat
  reqs : List (ReqPhase V)
deriving DecidableEq, Repr

/-- Advance request `i` by one step: `checking` resolves the awaited
`cacheService.get` (hit answers immediately, miss proceeds to the fetch);
`fetching` completes the awaited `getTournamentBySlug` (one more upstream
fetch); `writing` completes the awaited `cacheService.set` and responds
`cached: false`. -/
def stepReq {V : Type} (upstream : V) (s : FlightState V) (i : Nat) : FlightState V :=
  match s.reqs[i]? with
  | none => s
  | some ph =>
    match ph with
    | ReqPhase.checking =>
      match s.cache with
      | some t => { s with reqs := s.reqs.set i (ReqPhase.doneHit t) }
      | none => { s with reqs := s.reqs.set i ReqPhase.fetching }
    | ReqPhase.fetching =>
      { s with fetchCount := s.fetchCount + 1
               reqs := s.reqs.set i (ReqPhase.writing upstream) }
    | ReqPhase.writing t =>
      { s with cache := some t, reqs := s.reqs.set i (ReqPhase.doneFresh t) }
    | ReqPhase.doneFresh _ => s
    | ReqPhase.doneHit _ => s

def runSched {V : Type} (upstream : V) (s : FlightState V) (sched : List Nat) :
    FlightState V :=
  sched.foldl (stepReq upstream) s

/-- N concurrent requests, all about to check a cold cache. -/
def initFlight {V : Type} (n : Nat) : FlightState V :=
  { cache := none, fetchCount := 0, reqs := List.replicate n ReqPhase.checking }

/-- A request is past the fetch point once it holds fetched data. -/
def pastFetch {V : Type} : ReqPhase V → Bool
  | ReqPhase.checking => false
  | ReqPhase.fetching => false
  | ReqPhase.writing _ => true
  | ReqPhase.doneFresh _ => true
  | ReqPhase.doneHit _ => false

/-- C1 counterexample: two concurrent cache-miss reads of the same slug, both
checking the cold cache before either fetch completes, perform two upstream
fetches — not the exactly-one fetch the single-flight claim requires. -/
theorem singleFlight_counterexample :
    (runSched demoTournament (initFlight 2) [0, 1, 0, 1, 0, 1]).fetchCount = 2
    ∧ (runSched demoTournament (initFlight 2) [0, 1, 0, 1, 0, 1]).reqs
        = [ReqPhase.doneFresh demoTournament, ReqPhase.doneFresh demoTournament]
    ∧ (runSched demoTournament (initFlight 2) [0, 1, 0, 1, 0, 1]).fetchCount ≠ 1 := by
  refine ⟨?_, ?_, ?_⟩ <;> decide

theorem countP_set_add {α : Type} (p : α → Bool) :
    ∀ (l : List α) (i : Nat) (a x : α), l[i]? = some a →
      (l.set i x).countP p + (if p a = true then 1 else 0) =
        l.countP p + (if p x = true then 1 else 0) := by
  intro l
  induction l with
  | nil => intro i a x h; simp at h
  | cons hd tl ih =>
    intro i a x h
    cases i with
    | zero =>
      simp only [List.getElem?_cons_zero, Option.some.injEq] at h
      subst h
      simp only [List.set_cons_zero, List.countP_cons]
      omega
    | succ j =>
      simp only [List.getElem?_cons_succ] at h
      have := ih j a x h
      simp only [List.set_cons_succ, List.countP_cons]
      omega

theorem stepReq_fetchCount {V : Type} (upstream : V) (s : FlightState V) (i : Nat)
    (h : s.fetchCount = s.reqs.countP pastFetch) :
    (stepReq upstream s i).fetchCount = (stepReq upstream s i).reqs.countP pastFetch := by
  unfold stepReq
  cases hph : s.reqs[i]? with
  | none => exact h
  | some ph =>
    cases ph with
    | checking =>
      cases hc : s.cache with
      | some t =>
        have hcount := countP_set_add pastFetch s.reqs i ReqPhase.checking
          (ReqPhase.doneHit t) hph
        simp [pastFetch] at hcount
        show s.fetchCount = (s.reqs.set i (ReqPhase.doneHit t)).countP pastFetch
        omega
      | none =>
        have hcount := countP_set_add pastFetch s.reqs i ReqPhase.checking
          ReqPhase.fetching hph
        simp [pastFetch] at hcount
        show s.fetchCount = (s.reqs.set i ReqPhase.fetching).countP pastFetch
        omega
    | fetching =>
      have hcount := countP_set_add pastFetch s.reqs i ReqPhase.fetching
        (ReqPhase.writing upstream) hph
      simp [pastFetch] at hcount
      show s.fetchCount + 1 = (s.reqs.set i (ReqPhase.writing upstream)).countP pastFetch
      omega
    | writing t =>
      have hcount := countP_set_add pastFetch s.reqs i (ReqPhase.writing t)
        (ReqPhase.doneFresh t) hph
      simp [pastFetch] at hcount
      show s.fetchCount = (s.reqs.set i (ReqPhase.doneFresh t)).countP pastFetch
      omega
    | doneFresh t => exact h
    | doneHit t => exact h

/-- C1 (amended): the router keeps no in-flight map and performs no
coalescing. Under every interleaving of N concurrent reads of one slug, the
number of upstream fetches equals the number of requests that are past their
own fetch point — each request that observed a cache miss fetches for itself —
so N concurrent misses produce up to N upstream fetches, and only a request
whose cache check ran after another request's write-back is served without
fetching. -/
theorem runSched_fetchCount {V : Type} (upstream : V) (n : Nat) (sched : List Nat) :
    (runSched upstream (initFlight n) sched).fetchCount =
      ((runSched upstream (initFlight n) sched).reqs.countP pastFetch : Nat) := by
  unfold runSched
  refine foldl_preserves (fun s => s.fetchCount = s.reqs.countP pastFetch)
    (stepReq upstream) (fun s i hs => stepReq_fetchCount upstream s i hs)
    sched (initFlight n) ?_
  show (initFlight (V := V) n).fetchCount = (initFlight (V := V) n).reqs.countP pastFetch
  have hz : List.countP (pastFetch (V := V)) (List.replicate n ReqPhase.checking) = 0 := by
    rw [List.countP_eq_zero]
    intro a ha
    rw [List.eq_of_mem_replicate ha]
    simp [pastFetch]
  simp [initFlight, hz]

end Dashboard
